import Mathlib

/-!
Shallow embedding of `github.com/johnlettman/buffergenerics` (files
`read.go` and `errors.go`) and proofs about its decode operation.

Modelling conventions:

* A Go byte is `Fin 256`; a buffer (`[]byte`) is a `List Byte`.
* A Go `int` is a mathematical `Int`; wherever the Go program performs
  64-bit signed machine arithmetic whose wrap-around is observable
  (the `end := offset + size` addition in `ReadOrderedT`), the model
  applies `wrap64` explicitly.  We model a 64-bit platform, where
  `int`, `uint` and `uintptr` are 64 bits wide (`reflect.Type.Bits`).
* `binary.ByteOrder` values passed by callers are `Option ByteOrder`
  (`none` models a `nil` interface value); `binary.NativeEndian`
  resolves at build time to the host platform's byte order, so the
  model takes the resolved native order as an explicit `native`
  parameter and every theorem quantifies over it.
* Go's `reflect.Kind` dispatch over the type parameter `T` (bounded by
  `constraints.Integer | constraints.Float`) is modelled by `GoKind`,
  which enumerates exactly the kinds reachable through that constraint.
* IEEE-754 `float32`/`float64` values are represented by their bit
  patterns (`math.Float32frombits` / `math.Float64frombits` are
  bijections onto bit patterns, and the spec compares floats by bit
  pattern), so the `GoValue.f32`/`GoValue.f64` constructors carry the
  32- or 64-bit pattern.
* Go runtime panics from out-of-range indexing (`buffer[offset]`) and
  slicing (`buffer[offset:end]`) are explicit `ReadResult.crash`
  outcomes; `panic(err)` in `MustReadOrderedT` is `MustResult.panicked`.
-/

namespace BufferGenerics

/-- A Go byte: an 8-bit unsigned integer. -/
abbrev Byte := Fin 256

/-- A resolved byte order (`binary.BigEndian` or `binary.LittleEndian`;
`binary.NativeEndian` is one of these two, chosen by the host platform). -/
inductive ByteOrder
  | big
  | little
deriving DecidableEq, Repr

/-- The `reflect.Kind` values reachable through the generic constraint
`constraints.Integer | constraints.Float` of `ReadOrderedT`. -/
inductive GoKind
  | int
  | int8
  | int16
  | int32
  | int64
  | uint
  | uint8
  | uint16
  | uint32
  | uint64
  | uintptr
  | float32
  | float64
deriving DecidableEq, Repr

/-- `reflect.TypeFor[T]().Bits()` on a 64-bit platform. -/
def GoKind.bits : GoKind → Nat
  | .int8 | .uint8 => 8
  | .int16 | .uint16 => 16
  | .int32 | .uint32 | .float32 => 32
  | .int64 | .uint64 | .float64 => 64
  | .int | .uint | .uintptr => 64

/-- A decoded Go value.  Signed integers carry their mathematical value,
unsigned integers their magnitude, floats their IEEE-754 bit pattern;
the `Nat` index records the bit width of the Go type. -/
inductive GoValue
  | i (width : Nat) (v : Int)
  | u (width : Nat) (v : Nat)
  | f32 (bits : Nat)
  | f64 (bits : Nat)
deriving DecidableEq, Repr

/-- The zero value `*new(T)` of each kind. -/
def GoKind.zeroValue : GoKind → GoValue
  | .int8 => .i 8 0
  | .int16 => .i 16 0
  | .int32 => .i 32 0
  | .int64 => .i 64 0
  | .int => .i 64 0
  | .uint8 => .u 8 0
  | .uint16 => .u 16 0
  | .uint32 => .u 32 0
  | .uint64 => .u 64 0
  | .uint => .u 64 0
  | .uintptr => .u 64 0
  | .float32 => .f32 0
  | .float64 => .f64 0

/-- The two error values `ReadOrderedT` can return: `io.EOF`, and
`ErrUnknownKind` from `errors.go` (which carries the offending
`reflect.Kind`; the `fmt.Errorf` message string is not modelled). -/
inductive GoError
  | eof
  | unknownKind (kind : GoKind)
deriving DecidableEq, Repr

/-- A Go runtime panic raised by an out-of-range index or slice
expression. -/
inductive RuntimePanic
  | indexOutOfRange
  | sliceOutOfRange
deriving DecidableEq, Repr

/-- Outcome of `ReadOrderedT`: a normal `(value, nil)` return, a
`(zero, err)` return (Go returns the zero value alongside the error),
or a runtime panic. -/
inductive ReadResult
  | ok (v : GoValue)
  | err (zero : GoValue) (e : GoError)
  | crash (c : RuntimePanic)
deriving DecidableEq, Repr

/-- Outcome of `MustReadOrderedT`: a value, a `panic(err)` carrying the
error from `ReadOrderedT`, or a propagated runtime panic. -/
inductive MustResult
  | ok (v : GoValue)
  | panicked (e : GoError)
  | crash (c : RuntimePanic)
deriving DecidableEq, Repr

/-- Go 64-bit signed wrap-around: the value of `x` reduced into
`[-2^63, 2^63)`, as produced by Go's defined two's-complement overflow
of `int` addition on a 64-bit platform. -/
def wrap64 (x : Int) : Int :=
  (x + 2 ^ 63) % 2 ^ 64 - 2 ^ 63

/-- The byte `buffer[j]` (meaningful when `0 ≤ j < buffer.length`;
guarded call sites check this and crash otherwise). -/
def byteAt (buffer : List Byte) (j : Int) : Byte :=
  buffer.getD j.toNat 0

/-- `binary.ByteOrder.Uint16` applied to the two bytes of a length-2
slice: `LittleEndian` is `b0 | b1<<8`, `BigEndian` is `b1 | b0<<8`. -/
def ByteOrder.uint16 (o : ByteOrder) (b0 b1 : Byte) : Nat :=
  match o with
  | .little => b0.val + b1.val * 2 ^ 8
  | .big => b1.val + b0.val * 2 ^ 8

/-- `binary.ByteOrder.Uint32` applied to the four bytes of a length-4
slice. -/
def ByteOrder.uint32 (o : ByteOrder) (b0 b1 b2 b3 : Byte) : Nat :=
  match o with
  | .little => b0.val + b1.val * 2 ^ 8 + b2.val * 2 ^ 16 + b3.val * 2 ^ 24
  | .big => b3.val + b2.val * 2 ^ 8 + b1.val * 2 ^ 16 + b0.val * 2 ^ 24

/-- `binary.ByteOrder.Uint64` applied to the eight bytes of a length-8
slice. -/
def ByteOrder.uint64 (o : ByteOrder) (b0 b1 b2 b3 b4 b5 b6 b7 : Byte) : Nat :=
  match o with
  | .little =>
      b0.val + b1.val * 2 ^ 8 + b2.val * 2 ^ 16 + b3.val * 2 ^ 24 +
      b4.val * 2 ^ 32 + b5.val * 2 ^ 40 + b6.val * 2 ^ 48 + b7.val * 2 ^ 56
  | .big =>
      b7.val + b6.val * 2 ^ 8 + b5.val * 2 ^ 16 + b4.val * 2 ^ 24 +
      b3.val * 2 ^ 32 + b2.val * 2 ^ 40 + b1.val * 2 ^ 48 + b0.val * 2 ^ 56

/-- Go's integer conversion `T(u)` for a signed integer type `T` of bit
width `w` applied to an unsigned value `u < 2^w`: the low `w` bits
reinterpreted as two's complement. -/
def toSigned (w : Nat) (n : Nat) : Int :=
  if n < 2 ^ (w - 1) then (n : Int) else (n : Int) - 2 ^ w

/-- `ReadOrderedT[T](buffer, offset, order)` from `read.go`:

```go
func ReadOrderedT[T constraints.Integer | constraints.Float](buffer []byte, offset int, order binary.ByteOrder) (T, error) {
    if order == nil { order = binary.ByteOrder(binary.NativeEndian) }
    typ := reflect.TypeFor[T]()
    zero := *new(T)
    kind := typ.Kind()
    size := typ.Bits() / 8
    end := offset + size
    if end > len(buffer) { return zero, io.EOF }
    switch kind {
    case reflect.Int8, reflect.Uint8:   return T(buffer[offset]), nil
    case reflect.Int16, reflect.Uint16: u16 := order.Uint16(buffer[offset:end]); return T(u16), nil
    case reflect.Int32, reflect.Uint32: u32 := order.Uint32(buffer[offset:end]); return T(u32), nil
    case reflect.Int64, reflect.Uint64, reflect.Uintptr: u64 := order.Uint64(buffer[offset:end]); return T(u64), nil
    case reflect.Float32: fu32 := order.Uint32(buffer[offset:end]); return T(math.Float32frombits(fu32)), nil
    case reflect.Float64: fu64 := order.Uint64(buffer[offset:end]); return T(math.Float64frombits(fu64)), nil
    default: return zero, NewErrUnknownKind(kind)
    }
}
```

The index expression `buffer[offset]` panics unless
`0 ≤ offset < len(buffer)`, and the slice expression
`buffer[offset:end]` panics unless `0 ≤ offset ≤ end` (that
`end ≤ cap(buffer)` already follows from the `end > len(buffer)`
check); both panics are modelled as `ReadResult.crash`.  When the slice
is formed, its length equals `size`, so `order.UintN` reads the bytes
`buffer[offset] .. buffer[offset+size-1]`. -/
def ReadOrderedT (native : ByteOrder) (kind : GoKind) (buffer : List Byte)
    (offset : Int) (order : Option ByteOrder) : ReadResult :=
  let ord := order.getD native
  let size : Int := ((kind.bits / 8 : Nat) : Int)
  let zero := kind.zeroValue
  let endIdx := wrap64 (offset + size)
  if endIdx > (buffer.length : Int) then
    .err zero .eof
  else
    match kind with
    | .int8 =>
        if 0 ≤ offset ∧ offset < (buffer.length : Int) then
          .ok (.i 8 (toSigned 8 (byteAt buffer offset).val))
        else .crash .indexOutOfRange
    | .uint8 =>
        if 0 ≤ offset ∧ offset < (buffer.length : Int) then
          .ok (.u 8 (byteAt buffer offset).val)
        else .crash .indexOutOfRange
    | .int16 =>
        if 0 ≤ offset ∧ offset ≤ endIdx then
          .ok (.i 16 (toSigned 16
            (ord.uint16 (byteAt buffer offset) (byteAt buffer (offset + 1)))))
        else .crash .sliceOutOfRange
    | .uint16 =>
        if 0 ≤ offset ∧ offset ≤ endIdx then
          .ok (.u 16 (ord.uint16 (byteAt buffer offset) (byteAt buffer (offset + 1))))
        else .crash .sliceOutOfRange
    | .int32 =>
        if 0 ≤ offset ∧ offset ≤ endIdx then
          .ok (.i 32 (toSigned 32
            (ord.uint32 (byteAt buffer offset) (byteAt buffer (offset + 1))
              (byteAt buffer (offset + 2)) (byteAt buffer (offset + 3)))))
        else .crash .sliceOutOfRange
    | .uint32 =>
        if 0 ≤ offset ∧ offset ≤ endIdx then
          .ok (.u 32 (ord.uint32 (byteAt buffer offset) (byteAt buffer (offset + 1))
            (byteAt buffer (offset + 2)) (byteAt buffer (offset + 3))))
        else .crash .sliceOutOfRange
    | .int64 =>
        if 0 ≤ offset ∧ offset ≤ endIdx then
          .ok (.i 64 (toSigned 64
            (ord.uint64 (byteAt buffer offset) (byteAt buffer (offset + 1))
              (byteAt buffer (offset + 2)) (byteAt buffer (offset + 3))
              (byteAt buffer (offset + 4)) (byteAt buffer (offset + 5))
              (byteAt buffer (offset + 6)) (byteAt buffer (offset + 7)))))
        else .crash .sliceOutOfRange
    | .uint64 =>
        if 0 ≤ offset ∧ offset ≤ endIdx then
          .ok (.u 64 (ord.uint64 (byteAt buffer offset) (byteAt buffer (offset + 1))
            (byteAt buffer (offset + 2)) (byteAt buffer (offset + 3))
            (byteAt buffer (offset + 4)) (byteAt buffer (offset + 5))
            (byteAt buffer (offset + 6)) (byteAt buffer (offset + 7))))
        else .crash .sliceOutOfRange
    | .uintptr =>
        if 0 ≤ offset ∧ offset ≤ endIdx then
          .ok (.u 64 (ord.uint64 (byteAt buffer offset) (byteAt buffer (offset + 1))
            (byteAt buffer (offset + 2)) (byteAt buffer (offset + 3))
            (byteAt buffer (offset + 4)) (byteAt buffer (offset + 5))
            (byteAt buffer (offset + 6)) (byteAt buffer (offset + 7))))
        else .crash .sliceOutOfRange
    | .float32 =>
        if 0 ≤ offset ∧ offset ≤ endIdx then
          .ok (.f32 (ord.uint32 (byteAt buffer offset) (byteAt buffer (offset + 1))
            (byteAt buffer (offset + 2)) (byteAt buffer (offset + 3))))
        else .crash .sliceOutOfRange
    | .float64 =>
        if 0 ≤ offset ∧ offset ≤ endIdx then
          .ok (.f64 (ord.uint64 (byteAt buffer offset) (byteAt buffer (offset + 1))
            (byteAt buffer (offset + 2)) (byteAt buffer (offset + 3))
            (byteAt buffer (offset + 4)) (byteAt buffer (offset + 5))
            (byteAt buffer (offset + 6)) (byteAt buffer (offset + 7))))
        else .crash .sliceOutOfRange
    | .int => .err zero (.unknownKind kind)
    | .uint => .err zero (.unknownKind kind)

/-- Specification-side definition ("most-significant byte first"): the
unsigned magnitude obtained by combining a byte sequence big-endian. -/
def msbMagnitude (bs : List Byte) : Nat :=
  bs.foldl (fun acc b => acc * 256 + b.val) 0

/-- Specification-side definition ("least-significant byte first"): the
unsigned magnitude obtained by combining a byte sequence little-endian. -/
def lsbMagnitude (bs : List Byte) : Nat :=
  bs.foldr (fun b acc => acc * 256 + b.val) 0

/-- Specification-side definition: the magnitude prescribed by the spec
for each ordering. -/
def orderMagnitude (o : ByteOrder) (bs : List Byte) : Nat :=
  match o with
  | .big => msbMagnitude bs
  | .little => lsbMagnitude bs

/-- Specification-side definition: "the width(T) bytes at the offset",
namely `buffer[offset] .. buffer[offset+width-1]`. -/
def bytesAt (buffer : List Byte) (offset : Int) (width : Nat) : List Byte :=
  (List.range width).map (fun i => byteAt buffer (offset + i))

/-- Specification-side definition: reinterpret an unsigned `w`-bit
magnitude as a two's-complement signed integer of the same width (the
sign lives in the high-order bit; values with that bit set represent
`n - 2^w`). -/
def twosComplement (w : Nat) (n : Nat) : Int :=
  if 2 ^ (w - 1) ≤ n then (n : Int) - 2 ^ w else (n : Int)

/-- Specification-side definition: a single byte reinterpreted with the
signedness requested by a width-1 kind. -/
def byteValue (kind : GoKind) (b : Byte) : GoValue :=
  match kind with
  | .int8 => .i 8 (twosComplement 8 b.val)
  | _ => .u 8 b.val

/-- The low byte `byte(v)` of a Go unsigned integer. -/
def lowByte (n : Nat) : Byte :=
  ⟨n % 256, Nat.mod_lt n (by decide)⟩

/-- `binary.ByteOrder.PutUint16`: `LittleEndian` stores
`byte(v), byte(v>>8)`; `BigEndian` the reverse. -/
def ByteOrder.putUint16 (o : ByteOrder) (v : Nat) : List Byte :=
  match o with
  | .little => [lowByte v, lowByte (v / 2 ^ 8)]
  | .big => [lowByte (v / 2 ^ 8), lowByte v]

/-- `binary.ByteOrder.PutUint32`. -/
def ByteOrder.putUint32 (o : ByteOrder) (v : Nat) : List Byte :=
  match o with
  | .little => [lowByte v, lowByte (v / 2 ^ 8), lowByte (v / 2 ^ 16), lowByte (v / 2 ^ 24)]
  | .big => [lowByte (v / 2 ^ 24), lowByte (v / 2 ^ 16), lowByte (v / 2 ^ 8), lowByte v]

/-- `binary.ByteOrder.PutUint64`. -/
def ByteOrder.putUint64 (o : ByteOrder) (v : Nat) : List Byte :=
  match o with
  | .little =>
      [lowByte v, lowByte (v / 2 ^ 8), lowByte (v / 2 ^ 16), lowByte (v / 2 ^ 24),
       lowByte (v / 2 ^ 32), lowByte (v / 2 ^ 40), lowByte (v / 2 ^ 48), lowByte (v / 2 ^ 56)]
  | .big =>
      [lowByte (v / 2 ^ 56), lowByte (v / 2 ^ 48), lowByte (v / 2 ^ 40), lowByte (v / 2 ^ 32),
       lowByte (v / 2 ^ 24), lowByte (v / 2 ^ 16), lowByte (v / 2 ^ 8), lowByte v]

/-- Encode the `kind.bits`-bit pattern `n` into `kind.bits / 8` bytes
with ordering `o`, exactly as the repository's tests do
(`order.PutUintN(buf, uintN(want))`; a width-1 value is stored as its
single byte). -/
def encodeBits (o : ByteOrder) (kind : GoKind) (n : Nat) : List Byte :=
  match kind.bits / 8 with
  | 1 => [lowByte n]
  | 2 => o.putUint16 n
  | 4 => o.putUint32 n
  | _ => o.putUint64 n

/-- The value of kind `kind` whose bit pattern is `n`: unsigned kinds
and floats carry the pattern itself, signed kinds its two's-complement
reading.  Every representable value of a supported kind arises this way
from exactly one `n < 2 ^ kind.bits`. -/
def valueOfBits (kind : GoKind) (n : Nat) : GoValue :=
  match kind with
  | .int8 => .i 8 (twosComplement 8 n)
  | .int16 => .i 16 (twosComplement 16 n)
  | .int32 => .i 32 (twosComplement 32 n)
  | .int64 => .i 64 (twosComplement 64 n)
  | .int => .i 64 (twosComplement 64 n)
  | .uint8 => .u 8 n
  | .uint16 => .u 16 n
  | .uint32 => .u 32 n
  | .uint64 => .u 64 n
  | .uint => .u 64 n
  | .uintptr => .u 64 n
  | .float32 => .f32 n
  | .float64 => .f64 n

/-- `MustReadOrderedT[T](buffer, offset, order)` from `read.go`: calls
`ReadOrderedT` and does `panic(err)` on a non-nil error; a runtime
panic inside `ReadOrderedT` propagates unchanged. -/
def MustReadOrderedT (native : ByteOrder) (kind : GoKind) (buffer : List Byte)
    (offset : Int) (order : Option ByteOrder) : MustResult :=
  match ReadOrderedT native kind buffer offset order with
  | .ok v => .ok v
  | .err _ e => .panicked e
  | .crash c => .crash c

/-- `ReadT[T](buffer, offset)` from `read.go`: calls `ReadOrderedT`
with `binary.NativeEndian` passed explicitly. -/
def ReadT (native : ByteOrder) (kind : GoKind) (buffer : List Byte)
    (offset : Int) : ReadResult :=
  ReadOrderedT native kind buffer offset (some native)

/-- `MustReadT[T](buffer, offset)` from `read.go`: calls
`MustReadOrderedT` with `binary.NativeEndian` passed explicitly. -/
def MustReadT (native : ByteOrder) (kind : GoKind) (buffer : List Byte)
    (offset : Int) : MustResult :=
  MustReadOrderedT native kind buffer offset (some native)

theorem wrap64_eq_self {x : Int} (h1 : -(2 ^ 63) ≤ x) (h2 : x < 2 ^ 63) :
    wrap64 x = x := by
  unfold wrap64
  omega

theorem ReadOrderedT_int8_eval (native ord : ByteOrder) (buffer : List Byte)
    (offset : Int) (h0 : 0 ≤ offset) (h1 : offset + 1 ≤ (buffer.length : Int))
    (h2 : (buffer.length : Int) < 2 ^ 63) :
    ReadOrderedT native .int8 buffer offset (some ord) =
      .ok (.i 8 (toSigned 8 (byteAt buffer offset).val)) := by
  have hw : wrap64 (offset + 1) = offset + 1 := wrap64_eq_self (by omega) (by omega)
  simp only [ReadOrderedT, GoKind.bits, Option.getD]
  norm_num
  rw [hw, if_neg (by omega), if_pos ⟨h0, by omega⟩]

theorem ReadOrderedT_uint8_eval (native ord : ByteOrder) (buffer : List Byte)
    (offset : Int) (h0 : 0 ≤ offset) (h1 : offset + 1 ≤ (buffer.length : Int))
    (h2 : (buffer.length : Int) < 2 ^ 63) :
    ReadOrderedT native .uint8 buffer offset (some ord) =
      .ok (.u 8 (byteAt buffer offset).val) := by
  have hw : wrap64 (offset + 1) = offset + 1 := wrap64_eq_self (by omega) (by omega)
  simp only [ReadOrderedT, GoKind.bits, Option.getD]
  norm_num
  rw [hw, if_neg (by omega), if_pos ⟨h0, by omega⟩]

theorem ReadOrderedT_int16_eval (native ord : ByteOrder) (buffer : List Byte)
    (offset : Int) (h0 : 0 ≤ offset) (h1 : offset + 2 ≤ (buffer.length : Int))
    (h2 : (buffer.length : Int) < 2 ^ 63) :
    ReadOrderedT native .int16 buffer offset (some ord) =
      .ok (.i 16 (toSigned 16
        (ord.uint16 (byteAt buffer offset) (byteAt buffer (offset + 1))))) := by
  have hw : wrap64 (offset + 2) = offset + 2 := wrap64_eq_self (by omega) (by omega)
  simp only [ReadOrderedT, GoKind.bits, Option.getD]
  norm_num
  rw [hw, if_neg (by omega), if_pos ⟨h0, by omega⟩]

theorem ReadOrderedT_uint16_eval (native ord : ByteOrder) (buffer : List Byte)
    (offset : Int) (h0 : 0 ≤ offset) (h1 : offset + 2 ≤ (buffer.length : Int))
    (h2 : (buffer.length : Int) < 2 ^ 63) :
    ReadOrderedT native .uint16 buffer offset (some ord) =
      .ok (.u 16 (ord.uint16 (byteAt buffer offset) (byteAt buffer (offset + 1)))) := by
  have hw : wrap64 (offset + 2) = offset + 2 := wrap64_eq_self (by omega) (by omega)
  simp only [ReadOrderedT, GoKind.bits, Option.getD]
  norm_num
  rw [hw, if_neg (by omega), if_pos ⟨h0, by omega⟩]

theorem ReadOrderedT_int32_eval (native ord : ByteOrder) (buffer : List Byte)
    (offset : Int) (h0 : 0 ≤ offset) (h1 : offset + 4 ≤ (buffer.length : Int))
    (h2 : (buffer.length : Int) < 2 ^ 63) :
    ReadOrderedT native .int32 buffer offset (some ord) =
      .ok (.i 32 (toSigned 32
        (ord.uint32 (byteAt buffer offset) (byteAt buffer (offset + 1))
          (byteAt buffer (offset + 2)) (byteAt buffer (offset + 3))))) := by
  have hw : wrap64 (offset + 4) = offset + 4 := wrap64_eq_self (by omega) (by omega)
  simp only [ReadOrderedT, GoKind.bits, Option.getD]
  norm_num
  rw [hw, if_neg (by omega), if_pos ⟨h0, by omega⟩]

theorem ReadOrderedT_uint32_eval (native ord : ByteOrder) (buffer : List Byte)
    (offset : Int) (h0 : 0 ≤ offset) (h1 : offset + 4 ≤ (buffer.length : Int))
    (h2 : (buffer.length : Int) < 2 ^ 63) :
    ReadOrderedT native .uint32 buffer offset (some ord) =
      .ok (.u 32 (ord.uint32 (byteAt buffer offset) (byteAt buffer (offset + 1))
        (byteAt buffer (offset + 2)) (byteAt buffer (offset + 3)))) := by
  have hw : wrap64 (offset + 4) = offset + 4 := wrap64_eq_self (by omega) (by omega)
  simp only [ReadOrderedT, GoKind.bits, Option.getD]
  norm_num
  rw [hw, if_neg (by omega), if_pos ⟨h0, by omega⟩]

theorem ReadOrderedT_int64_eval (native ord : ByteOrder) (buffer : List Byte)
    (offset : Int) (h0 : 0 ≤ offset) (h1 : offset + 8 ≤ (buffer.length : Int))
    (h2 : (buffer.length : Int) < 2 ^ 63) :
    ReadOrderedT native .int64 buffer offset (some ord) =
      .ok (.i 64 (toSigned 64
        (ord.uint64 (byteAt buffer offset) (byteAt buffer (offset + 1))
          (byteAt buffer (offset + 2)) (byteAt buffer (offset + 3))
          (byteAt buffer (offset + 4)) (byteAt buffer (offset + 5))
          (byteAt buffer (offset + 6)) (byteAt buffer (offset + 7))))) := by
  have hw : wrap64 (offset + 8) = offset + 8 := wrap64_eq_self (by omega) (by omega)
  simp only [ReadOrderedT, GoKind.bits, Option.getD]
  norm_num
  rw [hw, if_neg (by omega), if_pos ⟨h0, by omega⟩]

theorem ReadOrderedT_uint64_eval (native ord : ByteOrder) (buffer : List Byte)
    (offset : Int) (h0 : 0 ≤ offset) (h1 : offset + 8 ≤ (buffer.length : Int))
    (h2 : (buffer.length : Int) < 2 ^ 63) :
    ReadOrderedT native .uint64 buffer offset (some ord) =
      .ok (.u 64 (ord.uint64 (byteAt buffer offset) (byteAt buffer (offset + 1))
        (byteAt buffer (offset + 2)) (byteAt buffer (offset + 3))
        (byteAt buffer (offset + 4)) (byteAt buffer (offset + 5))
        (byteAt buffer (offset + 6)) (byteAt buffer (offset + 7)))) := by
  have hw : wrap64 (offset + 8) = offset + 8 := wrap64_eq_self (by omega) (by omega)
  simp only [ReadOrderedT, GoKind.bits, Option.getD]
  norm_num
  rw [hw, if_neg (by omega), if_pos ⟨h0, by omega⟩]

theorem ReadOrderedT_uintptr_eval (native ord : ByteOrder) (buffer : List Byte)
    (offset : Int) (h0 : 0 ≤ offset) (h1 : offset + 8 ≤ (buffer.length : Int))
    (h2 : (buffer.length : Int) < 2 ^ 63) :
    ReadOrderedT native .uintptr buffer offset (some ord) =
      .ok (.u 64 (ord.uint64 (byteAt buffer offset) (byteAt buffer (offset + 1))
        (byteAt buffer (offset + 2)) (byteAt buffer (offset + 3))
        (byteAt buffer (offset + 4)) (byteAt buffer (offset + 5))
        (byteAt buffer (offset + 6)) (byteAt buffer (offset + 7)))) := by
  have hw : wrap64 (offset + 8) = offset + 8 := wrap64_eq_self (by omega) (by omega)
  simp only [ReadOrderedT, GoKind.bits, Option.getD]
  norm_num
  rw [hw, if_neg (by omega), if_pos ⟨h0, by omega⟩]

theorem ReadOrderedT_float32_eval (native ord : ByteOrder) (buffer : List Byte)
    (offset : Int) (h0 : 0 ≤ offset) (h1 : offset + 4 ≤ (buffer.length : Int))
    (h2 : (buffer.length : Int) < 2 ^ 63) :
    ReadOrderedT native .float32 buffer offset (some ord) =
      .ok (.f32 (ord.uint32 (byteAt buffer offset) (byteAt buffer (offset + 1))
        (byteAt buffer (offset + 2)) (byteAt buffer (offset + 3)))) := by
  have hw : wrap64 (offset + 4) = offset + 4 := wrap64_eq_self (by omega) (by omega)
  simp only [ReadOrderedT, GoKind.bits, Option.getD]
  norm_num
  rw [hw, if_neg (by omega), if_pos ⟨h0, by omega⟩]

theorem ReadOrderedT_float64_eval (native ord : ByteOrder) (buffer : List Byte)
    (offset : Int) (h0 : 0 ≤ offset) (h1 : offset + 8 ≤ (buffer.length : Int))
    (h2 : (buffer.length : Int) < 2 ^ 63) :
    ReadOrderedT native .float64 buffer offset (some ord) =
      .ok (.f64 (ord.uint64 (byteAt buffer offset) (byteAt buffer (offset + 1))
        (byteAt buffer (offset + 2)) (byteAt buffer (offset + 3))
        (byteAt buffer (offset + 4)) (byteAt buffer (offset + 5))
        (byteAt buffer (offset + 6)) (byteAt buffer (offset + 7)))) := by
  have hw : wrap64 (offset + 8) = offset + 8 := wrap64_eq_self (by omega) (by omega)
  simp only [ReadOrderedT, GoKind.bits, Option.getD]
  norm_num
  rw [hw, if_neg (by omega), if_pos ⟨h0, by omega⟩]

theorem ReadOrderedT_unknown_eval (native : ByteOrder) (ord : Option ByteOrder)
    (kind : GoKind) (buffer : List Byte) (offset : Int)
    (hk : kind = .int ∨ kind = .uint)
    (hb : wrap64 (offset + 8) ≤ (buffer.length : Int)) :
    ReadOrderedT native kind buffer offset ord =
      .err kind.zeroValue (.unknownKind kind) := by
  rcases hk with rfl | rfl <;>
  · simp only [ReadOrderedT, GoKind.bits, Option.getD]
    norm_num
    exact fun hlt => absurd hb (not_le.mpr hlt)


theorem byteAt_append (pre mid suf : List Byte) (i : Nat) (hi : i < mid.length) :
    byteAt (pre ++ mid ++ suf) ((pre.length : Int) + (i : Int)) = mid.getD i 0 := by
  unfold byteAt
  have ht : ((pre.length : Int) + (i : Int)).toNat = pre.length + i := by omega
  rw [ht, List.append_assoc, List.getD_append_right _ _ _ _ (Nat.le_add_right _ _),
    Nat.add_sub_cancel_left, List.getD_append _ _ _ _ hi]

theorem toSigned_eq_twosComplement (w n : Nat) : toSigned w n = twosComplement w n := by
  unfold toSigned twosComplement
  rcases lt_or_le n (2 ^ (w - 1)) with h | h
  · rw [if_pos h, if_neg (by omega)]
  · rw [if_neg (by omega), if_pos h]

theorem uint16_putUint16 (o : ByteOrder) (n : Nat) (hn : n < 2 ^ 16) :
    o.uint16 ((o.putUint16 n).getD 0 0) ((o.putUint16 n).getD 1 0) = n := by
  cases o <;> simp [ByteOrder.uint16, ByteOrder.putUint16, lowByte] <;> omega

theorem uint32_putUint32 (o : ByteOrder) (n : Nat) (hn : n < 2 ^ 32) :
    o.uint32 ((o.putUint32 n).getD 0 0) ((o.putUint32 n).getD 1 0)
      ((o.putUint32 n).getD 2 0) ((o.putUint32 n).getD 3 0) = n := by
  cases o <;> simp [ByteOrder.uint32, ByteOrder.putUint32, lowByte] <;> omega

theorem uint64_putUint64 (o : ByteOrder) (n : Nat) (hn : n < 2 ^ 64) :
    o.uint64 ((o.putUint64 n).getD 0 0) ((o.putUint64 n).getD 1 0)
      ((o.putUint64 n).getD 2 0) ((o.putUint64 n).getD 3 0)
      ((o.putUint64 n).getD 4 0) ((o.putUint64 n).getD 5 0)
      ((o.putUint64 n).getD 6 0) ((o.putUint64 n).getD 7 0) = n := by
  cases o <;> simp [ByteOrder.uint64, ByteOrder.putUint64, lowByte] <;> omega

theorem uint16_magnitude (o : ByteOrder) (b0 b1 : Byte) :
    o.uint16 b0 b1 = orderMagnitude o [b0, b1] := by
  cases o <;> simp [ByteOrder.uint16, orderMagnitude, msbMagnitude, lsbMagnitude] <;> ring

theorem uint32_magnitude (o : ByteOrder) (b0 b1 b2 b3 : Byte) :
    o.uint32 b0 b1 b2 b3 = orderMagnitude o [b0, b1, b2, b3] := by
  cases o <;> simp [ByteOrder.uint32, orderMagnitude, msbMagnitude, lsbMagnitude] <;> ring

theorem uint64_magnitude (o : ByteOrder) (b0 b1 b2 b3 b4 b5 b6 b7 : Byte) :
    o.uint64 b0 b1 b2 b3 b4 b5 b6 b7 = orderMagnitude o [b0, b1, b2, b3, b4, b5, b6, b7] := by
  cases o <;> simp [ByteOrder.uint64, orderMagnitude, msbMagnitude, lsbMagnitude] <;> ring

theorem bytesAt_two (buffer : List Byte) (offset : Int) :
    bytesAt buffer offset 2 = [byteAt buffer offset, byteAt buffer (offset + 1)] := by
  norm_num [bytesAt, List.range_succ]

theorem bytesAt_four (buffer : List Byte) (offset : Int) :
    bytesAt buffer offset 4 = [byteAt buffer offset, byteAt buffer (offset + 1),
      byteAt buffer (offset + 2), byteAt buffer (offset + 3)] := by
  norm_num [bytesAt, List.range_succ]

theorem bytesAt_eight (buffer : List Byte) (offset : Int) :
    bytesAt buffer offset 8 = [byteAt buffer offset, byteAt buffer (offset + 1),
      byteAt buffer (offset + 2), byteAt buffer (offset + 3),
      byteAt buffer (offset + 4), byteAt buffer (offset + 5),
      byteAt buffer (offset + 6), byteAt buffer (offset + 7)] := by
  norm_num [bytesAt, List.range_succ]


/-- Claim C1: for every 2-, 4-, or 8-byte unsigned integer type, every
resolved ordering (big-endian, little-endian, or whatever order the
native ordering resolves to on the host), every buffer, and every
in-bounds offset, the decode combines the width bytes at the offset
into an unsigned magnitude (most-significant byte first for big-endian,
least-significant byte first for little-endian) and converts that
magnitude to the requested type. -/
theorem c1_unsigned_multibyte_magnitude (native ord : ByteOrder) (kind : GoKind)
    (buffer : List Byte) (offset : Int)
    (hk : kind = .uint16 ∨ kind = .uint32 ∨ kind = .uint64)
    (h0 : 0 ≤ offset)
    (h1 : offset + ((kind.bits / 8 : Nat) : Int) ≤ (buffer.length : Int))
    (h2 : (buffer.length : Int) < 2 ^ 63) :
    ReadOrderedT native kind buffer offset (some ord) =
      .ok (.u kind.bits (orderMagnitude ord (bytesAt buffer offset (kind.bits / 8)))) := by
  rcases hk with rfl | rfl | rfl
  · norm_num [GoKind.bits] at h1 ⊢
    rw [ReadOrderedT_uint16_eval native ord buffer offset h0 h1 h2, bytesAt_two,
      ← uint16_magnitude]
  · norm_num [GoKind.bits] at h1 ⊢
    rw [ReadOrderedT_uint32_eval native ord buffer offset h0 h1 h2, bytesAt_four,
      ← uint32_magnitude]
  · norm_num [GoKind.bits] at h1 ⊢
    rw [ReadOrderedT_uint64_eval native ord buffer offset h0 h1 h2, bytesAt_eight,
      ← uint64_magnitude]

/-- Witness for C1: the spec's concrete scenarios, via
`c1_unsigned_multibyte_magnitude` — the big-endian encoding of 0x1234
decodes to 0x1234 under big-endian ordering and to 0x3412 under
little-endian ordering at offset 0. -/
theorem c1_witness :
    ReadOrderedT .little .uint16 [0x12, 0x34] 0 (some .big) = .ok (.u 16 0x1234) ∧
    ReadOrderedT .little .uint16 [0x12, 0x34] 0 (some .little) = .ok (.u 16 0x3412) :=
  ⟨(c1_unsigned_multibyte_magnitude .little .big .uint16 [0x12, 0x34] 0
      (Or.inl rfl) (by decide) (by decide) (by decide)).trans (by decide),
   (c1_unsigned_multibyte_magnitude .little .little .uint16 [0x12, 0x34] 0
      (Or.inl rfl) (by decide) (by decide) (by decide)).trans (by decide)⟩

/-- Claim C3 (code bug): the claim says every non-negative offset with
`offset + width(T) > length(buffer)` yields the InsufficientData
(`io.EOF`) error, but at `offset = 2^63 - 1` with a 1-byte type the Go
addition `end := offset + size` wraps to `-2^63`, the `end >
len(buffer)` check passes, and `buffer[offset]` panics with an
index-out-of-range runtime error instead of returning `io.EOF`. -/
theorem c3_overflow_offset_crash :
    ReadOrderedT .little .uint8 [] (2 ^ 63 - 1) (some .big) = .crash .indexOutOfRange ∧
    ReadOrderedT .little .uint8 [] (2 ^ 63 - 1) (some .big) ≠ .err (.u 8 0) .eof := by
  constructor
  · decide
  · decide

/-- Claim C4 (code bug): the claim (and the spec) say a negative offset
yields the InsufficientData error and never a crash, but `ReadOrderedT`
has no `offset < 0` check: with `offset = -1`, a 1-byte type and a
non-empty buffer, `end = 0 ≤ len(buffer)` passes the only bounds check
and `buffer[-1]` panics with an index-out-of-range runtime error. -/
theorem c4_negative_offset_crash :
    ReadOrderedT .little .uint8 [0xDE] (-1) (some .little) = .crash .indexOutOfRange ∧
    ReadOrderedT .little .uint8 [0xDE] (-1) (some .little) ≠ .err (.u 8 0) .eof := by
  constructor
  · decide
  · decide

/-- Claim C5: for every 2-, 4-, or 8-byte signed integer type, every
resolved ordering, every buffer, and every in-bounds offset, the
decoded signed value is the two's-complement reinterpretation of the
unsigned magnitude obtained by the same byte combination at the same
width. -/
theorem c5_signed_twos_complement (native ord : ByteOrder) (kind : GoKind)
    (buffer : List Byte) (offset : Int)
    (hk : kind = .int16 ∨ kind = .int32 ∨ kind = .int64)
    (h0 : 0 ≤ offset)
    (h1 : offset + ((kind.bits / 8 : Nat) : Int) ≤ (buffer.length : Int))
    (h2 : (buffer.length : Int) < 2 ^ 63) :
    ReadOrderedT native kind buffer offset (some ord) =
      .ok (.i kind.bits (twosComplement kind.bits
        (orderMagnitude ord (bytesAt buffer offset (kind.bits / 8))))) := by
  rcases hk with rfl | rfl | rfl
  · norm_num [GoKind.bits] at h1 ⊢
    rw [ReadOrderedT_int16_eval native ord buffer offset h0 h1 h2, bytesAt_two,
      ← uint16_magnitude, toSigned_eq_twosComplement]
  · norm_num [GoKind.bits] at h1 ⊢
    rw [ReadOrderedT_int32_eval native ord buffer offset h0 h1 h2, bytesAt_four,
      ← uint32_magnitude, toSigned_eq_twosComplement]
  · norm_num [GoKind.bits] at h1 ⊢
    rw [ReadOrderedT_int64_eval native ord buffer offset h0 h1 h2, bytesAt_eight,
      ← uint64_magnitude, toSigned_eq_twosComplement]

/-- Witness for C5: bytes whose unsigned 16-bit combination is 0xFFFF
decode as int16 to -1, via `c5_signed_twos_complement`. -/
theorem c5_witness :
    ReadOrderedT .big .int16 [0xFF, 0xFF] 0 (some .little) = .ok (.i 16 (-1)) :=
  (c5_signed_twos_complement .big .little .int16 [0xFF, 0xFF] 0
    (Or.inl rfl) (by decide) (by decide) (by decide)).trans (by decide)


/-- Claim C6: for the 1-byte kinds (int8, uint8), the decode result is
identical for every supplied ordering — big-endian, little-endian,
native, or nil — and, at an in-bounds offset, equals the single byte at
the offset reinterpreted with the requested signedness. -/
theorem c6_width1_order_irrelevant (native : ByteOrder) (kind : GoKind)
    (buffer : List Byte) (offset : Int)
    (hk : kind = .int8 ∨ kind = .uint8) :
    (∀ o1 o2 : Option ByteOrder,
      ReadOrderedT native kind buffer offset o1 = ReadOrderedT native kind buffer offset o2) ∧
    (0 ≤ offset → offset + 1 ≤ (buffer.length : Int) → (buffer.length : Int) < 2 ^ 63 →
      ∀ o : Option ByteOrder,
        ReadOrderedT native kind buffer offset o = .ok (byteValue kind (byteAt buffer offset))) := by
  constructor
  · intro o1 o2
    rcases hk with rfl | rfl <;> rfl
  · intro h0 h1 h2 o
    rcases hk with rfl | rfl
    · rw [show ReadOrderedT native .int8 buffer offset o =
            ReadOrderedT native .int8 buffer offset (some native) from rfl,
        ReadOrderedT_int8_eval native native buffer offset h0 h1 h2,
        toSigned_eq_twosComplement]
      rfl
    · rw [show ReadOrderedT native .uint8 buffer offset o =
            ReadOrderedT native .uint8 buffer offset (some native) from rfl,
        ReadOrderedT_uint8_eval native native buffer offset h0 h1 h2]
      rfl

/-- Witness for C6: decoding buffer `[0xDE, 0xAD, 0xCA, 0xFE]` at
offset 0 as uint8 yields 0xDE for a nil ordering, via
`c6_width1_order_irrelevant`. -/
theorem c6_witness :
    ReadOrderedT .little .uint8 [0xDE, 0xAD, 0xCA, 0xFE] 0 none = .ok (.u 8 0xDE) :=
  ((c6_width1_order_irrelevant .little .uint8 [0xDE, 0xAD, 0xCA, 0xFE] 0
    (Or.inr rfl)).2 (by decide) (by decide) (by decide) none).trans (by decide)

/-- Claim C7: for every kind, buffer, and offset, `ReadT` (which passes
`binary.NativeEndian` explicitly) and `ReadOrderedT` with a nil
ordering both produce exactly the result of `ReadOrderedT` with the
native ordering supplied explicitly. -/
theorem c7_nil_order_is_native (native : ByteOrder) (kind : GoKind)
    (buffer : List Byte) (offset : Int) :
    ReadT native kind buffer offset = ReadOrderedT native kind buffer offset (some native) ∧
    ReadOrderedT native kind buffer offset none =
      ReadOrderedT native kind buffer offset (some native) :=
  ⟨rfl, rfl⟩

/-- Counterexample for C8: the claim quantifies over every buffer and
offset, but the bounds check runs before the kind dispatch: decoding
the unsupported kind `int` from an empty buffer fails with `io.EOF`
(InsufficientData), not with the UnsupportedKind error. -/
theorem c8_counterexample :
    ReadOrderedT .little .int [] 0 (some .big) = .err (.i 64 0) .eof ∧
    ReadOrderedT .little .int [] 0 (some .big) ≠
      .err (.i 64 0) (.unknownKind .int) := by
  constructor
  · decide
  · decide

/-- Claim C8 as amended: for every kind that is not a supported numeric
kind (under the generic constraint these are exactly `int` and `uint`),
every ordering, and every buffer and offset that pass the bounds check
(`end ≤ len(buffer)` with `end` the wrapped `offset + 8`), decoding
fails with the UnsupportedKind error carrying the offending kind,
returns the zero value alongside it, and reads no byte of the buffer
(the result depends on the buffer only through its length). -/
theorem c8_unsupported_kind (native : ByteOrder) (ord : Option ByteOrder)
    (kind : GoKind) (buffer buffer2 : List Byte) (offset : Int)
    (hk : kind = .int ∨ kind = .uint)
    (hb : wrap64 (offset + 8) ≤ (buffer.length : Int)) :
    ReadOrderedT native kind buffer offset ord =
      .err kind.zeroValue (.unknownKind kind) ∧
    (buffer.length = buffer2.length →
      ReadOrderedT native kind buffer offset ord =
        ReadOrderedT native kind buffer2 offset ord) := by
  refine ⟨ReadOrderedT_unknown_eval native ord kind buffer offset hk hb, ?_⟩
  intro hlen
  rcases hk with rfl | rfl <;>
  · simp only [ReadOrderedT, Option.getD]
    rw [hlen]

/-- Witness for C8 (amended): decoding kind `int` from an 8-byte buffer
at offset 0 fails with the UnsupportedKind error, and replacing the
buffer by another of the same length leaves the result unchanged, via
`c8_unsupported_kind`. -/
theorem c8_witness :
    ReadOrderedT .little .int [1, 2, 3, 4, 5, 6, 7, 8] 0 (some .big) =
      .err (.i 64 0) (.unknownKind .int) ∧
    ReadOrderedT .little .int [1, 2, 3, 4, 5, 6, 7, 8] 0 (some .big) =
      ReadOrderedT .little .int [9, 9, 9, 9, 9, 9, 9, 9] 0 (some .big) :=
  ⟨(c8_unsupported_kind .little (some .big) .int [1, 2, 3, 4, 5, 6, 7, 8]
      [9, 9, 9, 9, 9, 9, 9, 9] 0 (Or.inl rfl) (by decide)).1,
   (c8_unsupported_kind .little (some .big) .int [1, 2, 3, 4, 5, 6, 7, 8]
      [9, 9, 9, 9, 9, 9, 9, 9] 0 (Or.inl rfl) (by decide)).2 (by decide)⟩

/-- Claim C9: `MustReadOrderedT` returns exactly the value
`ReadOrderedT` returns when it succeeds, panics with exactly the error
`ReadOrderedT` returns when it fails, never returns a value when
`ReadOrderedT` fails, and `MustReadT` is `MustReadOrderedT` with the
native ordering passed explicitly. -/
theorem c9_must_passthrough (native : ByteOrder) (kind : GoKind)
    (buffer : List Byte) (offset : Int) (order : Option ByteOrder) :
    (∀ v, ReadOrderedT native kind buffer offset order = .ok v →
      MustReadOrderedT native kind buffer offset order = .ok v) ∧
    (∀ z e, ReadOrderedT native kind buffer offset order = .err z e →
      MustReadOrderedT native kind buffer offset order = .panicked e) ∧
    (∀ v, MustReadOrderedT native kind buffer offset order = .ok v →
      ReadOrderedT native kind buffer offset order = .ok v) ∧
    MustReadT native kind buffer offset =
      MustReadOrderedT native kind buffer offset (some native) := by
  refine ⟨?_, ?_, ?_, rfl⟩
  · intro v h
    unfold MustReadOrderedT
    rw [h]
  · intro z e h
    unfold MustReadOrderedT
    rw [h]
  · intro v h
    unfold MustReadOrderedT at h
    rcases hr : ReadOrderedT native kind buffer offset order with w | ⟨z, e⟩ | c <;>
      rw [hr] at h <;> simp at h
    rw [h]

/-- Witness for C9: at a concrete in-bounds input `ReadOrderedT`
returns `0xDE` and `MustReadOrderedT` returns the same value; at a
concrete out-of-bounds input `ReadOrderedT` returns `io.EOF` and
`MustReadOrderedT` panics with that same error, both via
`c9_must_passthrough`. -/
theorem c9_witness :
    MustReadOrderedT .little .uint8 [0xDE] 0 (some .big) = .ok (.u 8 0xDE) ∧
    MustReadOrderedT .little .int64 [0xDE] 0 (some .big) = .panicked .eof :=
  ⟨(c9_must_passthrough .little .uint8 [0xDE] 0 (some .big)).1 (.u 8 0xDE) (by decide),
   (c9_must_passthrough .little .int64 [0xDE] 0 (some .big)).2.1 (.i 64 0) .eof (by decide)⟩

/-- Claim C10: the platform-word kinds `int` and `uint` are accepted by
the generic constraint but handled by no branch of the kind switch:
whenever the bounds check passes they fail with the UnsupportedKind
error instead of being decoded — while `uintptr`, also word-sized, is
decoded on the 64-bit unsigned path at the same offsets. -/
theorem c10_int_uint_unsupported (native : ByteOrder) (ord : Option ByteOrder)
    (buffer : List Byte) (offset : Int)
    (h0 : 0 ≤ offset) (h1 : offset + 8 ≤ (buffer.length : Int))
    (h2 : (buffer.length : Int) < 2 ^ 63) :
    ReadOrderedT native .int buffer offset ord = .err (.i 64 0) (.unknownKind .int) ∧
    ReadOrderedT native .uint buffer offset ord = .err (.u 64 0) (.unknownKind .uint) ∧
    (∀ o : ByteOrder, ReadOrderedT native .uintptr buffer offset (some o) =
      .ok (.u 64 (o.uint64 (byteAt buffer offset) (byteAt buffer (offset + 1))
        (byteAt buffer (offset + 2)) (byteAt buffer (offset + 3))
        (byteAt buffer (offset + 4)) (byteAt buffer (offset + 5))
        (byteAt buffer (offset + 6)) (byteAt buffer (offset + 7))))) := by
  have hw : wrap64 (offset + 8) = offset + 8 := wrap64_eq_self (by omega) (by omega)
  exact ⟨ReadOrderedT_unknown_eval native ord .int buffer offset (Or.inl rfl) (by omega),
    ReadOrderedT_unknown_eval native ord .uint buffer offset (Or.inr rfl) (by omega),
    fun o => ReadOrderedT_uintptr_eval native o buffer offset h0 h1 h2⟩

/-- Witness for C10: with an 8-byte buffer at offset 0, kind `int`
fails with UnsupportedKind while `uintptr` decodes the same window as a
64-bit little-endian unsigned integer, via `c10_int_uint_unsupported`. -/
theorem c10_witness :
    ReadOrderedT .little .int [1, 0, 0, 0, 0, 0, 0, 0] 0 (some .little) =
      .err (.i 64 0) (.unknownKind .int) ∧
    ReadOrderedT .little .uintptr [1, 0, 0, 0, 0, 0, 0, 0] 0 (some .little) =
      .ok (.u 64 1) :=
  ⟨(c10_int_uint_unsupported .little (some .little) [1, 0, 0, 0, 0, 0, 0, 0] 0
      (by decide) (by decide) (by decide)).1,
   ((c10_int_uint_unsupported .little (some .little) [1, 0, 0, 0, 0, 0, 0, 0] 0
      (by decide) (by decide) (by decide)).2.2 .little).trans (by decide)⟩


/-- Claim C2: for every supported numeric kind (8/16/32/64-bit signed
or unsigned integer, uintptr, float32, float64), every resolved
ordering, and every representable value — given by its bit pattern
`n < 2 ^ bits`, which ranges over all values including extremal
integers and NaN/Infinity/signed-zero float patterns, and determines
the value through `valueOfBits` (a bijection from patterns onto
representable values) — encoding the value into a buffer at any offset
with that ordering (`encodeBits`, the `order.PutUintN(buf, uintN(v))`
of the repository's tests) and decoding at the same offset with the
same ordering yields the original value exactly, with bit-pattern
equality for floats. -/
theorem c2_roundtrip (native ord : ByteOrder) (kind : GoKind) (n : Nat)
    (pre suf : List Byte)
    (hk1 : kind ≠ .int) (hk2 : kind ≠ .uint)
    (hn : n < 2 ^ kind.bits)
    (hlen : (((pre ++ encodeBits ord kind n ++ suf).length : Nat) : Int) < 2 ^ 63) :
    ReadOrderedT native kind (pre ++ encodeBits ord kind n ++ suf)
      ((pre.length : Nat) : Int) (some ord) = .ok (valueOfBits kind n) := by
  cases kind
  case int => exact absurd rfl hk1
  case uint => exact absurd rfl hk2
  case uint8 =>
    have hml : (encodeBits ord .uint8 n).length = 1 := rfl
    rw [ReadOrderedT_uint8_eval native ord _ _ (Int.natCast_nonneg _)
      (by rw [List.length_append, List.length_append, hml]; push_cast; omega) hlen]
    have hb0 : byteAt (pre ++ encodeBits ord .uint8 n ++ suf) (pre.length : Int) =
        (encodeBits ord .uint8 n).getD 0 0 := by
      simpa using byteAt_append pre _ suf 0 (by rw [hml]; omega)
    rw [hb0]
    show ReadResult.ok (.u 8 (lowByte n).val) = _
    have : (lowByte n).val = n := Nat.mod_eq_of_lt (by simpa [GoKind.bits] using hn)
    rw [this]
    rfl
  case int8 =>
    have hml : (encodeBits ord .int8 n).length = 1 := rfl
    rw [ReadOrderedT_int8_eval native ord _ _ (Int.natCast_nonneg _)
      (by rw [List.length_append, List.length_append, hml]; push_cast; omega) hlen]
    have hb0 : byteAt (pre ++ encodeBits ord .int8 n ++ suf) (pre.length : Int) =
        (encodeBits ord .int8 n).getD 0 0 := by
      simpa using byteAt_append pre _ suf 0 (by rw [hml]; omega)
    rw [hb0]
    show ReadResult.ok (.i 8 (toSigned 8 (lowByte n).val)) = _
    have : (lowByte n).val = n := Nat.mod_eq_of_lt (by simpa [GoKind.bits] using hn)
    rw [this, toSigned_eq_twosComplement]
    rfl
  case uint16 =>
    have he : encodeBits ord .uint16 n = ord.putUint16 n := rfl
    have hml : (ord.putUint16 n).length = 2 := by cases ord <;> rfl
    rw [ReadOrderedT_uint16_eval native ord _ _ (Int.natCast_nonneg _)
      (by rw [List.length_append, List.length_append, he, hml]; push_cast; omega) hlen]
    have hb0 : byteAt (pre ++ encodeBits ord .uint16 n ++ suf) (pre.length : Int) =
        (ord.putUint16 n).getD 0 0 := by
      simpa [he] using byteAt_append pre _ suf 0 (by rw [hml]; omega)
    have hb1 : byteAt (pre ++ encodeBits ord .uint16 n ++ suf) ((pre.length : Int) + 1) =
        (ord.putUint16 n).getD 1 0 := by
      simpa [he] using byteAt_append pre _ suf 1 (by rw [hml]; omega)
    rw [hb0, hb1, uint16_putUint16 ord n (by simpa [GoKind.bits] using hn)]
    rfl
  case int16 =>
    have he : encodeBits ord .int16 n = ord.putUint16 n := rfl
    have hml : (ord.putUint16 n).length = 2 := by cases ord <;> rfl
    rw [ReadOrderedT_int16_eval native ord _ _ (Int.natCast_nonneg _)
      (by rw [List.length_append, List.length_append, he, hml]; push_cast; omega) hlen]
    have hb0 : byteAt (pre ++ encodeBits ord .int16 n ++ suf) (pre.length : Int) =
        (ord.putUint16 n).getD 0 0 := by
      simpa [he] using byteAt_append pre _ suf 0 (by rw [hml]; omega)
    have hb1 : byteAt (pre ++ encodeBits ord .int16 n ++ suf) ((pre.length : Int) + 1) =
        (ord.putUint16 n).getD 1 0 := by
      simpa [he] using byteAt_append pre _ suf 1 (by rw [hml]; omega)
    rw [hb0, hb1, uint16_putUint16 ord n (by simpa [GoKind.bits] using hn),
      toSigned_eq_twosComplement]
    rfl
  case uint32 =>
    have he : encodeBits ord .uint32 n = ord.putUint32 n := rfl
    have hml : (ord.putUint32 n).length = 4 := by cases ord <;> rfl
    rw [ReadOrderedT_uint32_eval native ord _ _ (Int.natCast_nonneg _)
      (by rw [List.length_append, List.length_append, he, hml]; push_cast; omega) hlen]
    have hb0 : byteAt (pre ++ encodeBits ord .uint32 n ++ suf) (pre.length : Int) =
        (ord.putUint32 n).getD 0 0 := by
      simpa [he] using byteAt_append pre _ suf 0 (by rw [hml]; omega)
    have hb1 : byteAt (pre ++ encodeBits ord .uint32 n ++ suf) ((pre.length : Int) + 1) =
        (ord.putUint32 n).getD 1 0 := by
      simpa [he] using byteAt_append pre _ suf 1 (by rw [hml]; omega)
    have hb2 : byteAt (pre ++ encodeBits ord .uint32 n ++ suf) ((pre.length : Int) + 2) =
        (ord.putUint32 n).getD 2 0 := by
      simpa [he] using byteAt_append pre _ suf 2 (by rw [hml]; omega)
    have hb3 : byteAt (pre ++ encodeBits ord .uint32 n ++ suf) ((pre.length : Int) + 3) =
        (ord.putUint32 n).getD 3 0 := by
      simpa [he] using byteAt_append pre _ suf 3 (by rw [hml]; omega)
    rw [hb0, hb1, hb2, hb3, uint32_putUint32 ord n (by simpa [GoKind.bits] using hn)]
    rfl
  case int32 =>
    have he : encodeBits ord .int32 n = ord.putUint32 n := rfl
    have hml : (ord.putUint32 n).length = 4 := by cases ord <;> rfl
    rw [ReadOrderedT_int32_eval native ord _ _ (Int.natCast_nonneg _)
      (by rw [List.length_append, List.length_append, he, hml]; push_cast; omega) hlen]
    have hb0 : byteAt (pre ++ encodeBits ord .int32 n ++ suf) (pre.length : Int) =
        (ord.putUint32 n).getD 0 0 := by
      simpa [he] using byteAt_append pre _ suf 0 (by rw [hml]; omega)
    have hb1 : byteAt (pre ++ encodeBits ord .int32 n ++ suf) ((pre.length : Int) + 1) =
        (ord.putUint32 n).getD 1 0 := by
      simpa [he] using byteAt_append pre _ suf 1 (by rw [hml]; omega)
    have hb2 : byteAt (pre ++ encodeBits ord .int32 n ++ suf) ((pre.length : Int) + 2) =
        (ord.putUint32 n).getD 2 0 := by
      simpa [he] using byteAt_append pre _ suf 2 (by rw [hml]; omega)
    have hb3 : byteAt (pre ++ encodeBits ord .int32 n ++ suf) ((pre.length : Int) + 3) =
        (ord.putUint32 n).getD 3 0 := by
      simpa [he] using byteAt_append pre _ suf 3 (by rw [hml]; omega)
    rw [hb0, hb1, hb2, hb3, uint32_putUint32 ord n (by simpa [GoKind.bits] using hn),
      toSigned_eq_twosComplement]
    rfl
  case uint64 =>
    have he : encodeBits ord .uint64 n = ord.putUint64 n := rfl
    have hml : (ord.putUint64 n).length = 8 := by cases ord <;> rfl
    rw [ReadOrderedT_uint64_eval native ord _ _ (Int.natCast_nonneg _)
      (by rw [List.length_append, List.length_append, he, hml]; push_cast; omega) hlen]
    have hb0 : byteAt (pre ++ encodeBits ord .uint64 n ++ suf) (pre.length : Int) =
        (ord.putUint64 n).getD 0 0 := by
      simpa [he] using byteAt_append pre _ suf 0 (by rw [hml]; omega)
    have hb1 : byteAt (pre ++ encodeBits ord .uint64 n ++ suf) ((pre.length : Int) + 1) =
        (ord.putUint64 n).getD 1 0 := by
      simpa [he] using byteAt_append pre _ suf 1 (by rw [hml]; omega)
    have hb2 : byteAt (pre ++ encodeBits ord .uint64 n ++ suf) ((pre.length : Int) + 2) =
        (ord.putUint64 n).getD 2 0 := by
      simpa [he] using byteAt_append pre _ suf 2 (by rw [hml]; omega)
    have hb3 : byteAt (pre ++ encodeBits ord .uint64 n ++ suf) ((pre.length : Int) + 3) =
        (ord.putUint64 n).getD 3 0 := by
      simpa [he] using byteAt_append pre _ suf 3 (by rw [hml]; omega)
    have hb4 : byteAt (pre ++ encodeBits ord .uint64 n ++ suf) ((pre.length : Int) + 4) =
        (ord.putUint64 n).getD 4 0 := by
      simpa [he] using byteAt_append pre _ suf 4 (by rw [hml]; omega)
    have hb5 : byteAt (pre ++ encodeBits ord .uint64 n ++ suf) ((pre.length : Int) + 5) =
        (ord.putUint64 n).getD 5 0 := by
      simpa [he] using byteAt_append pre _ suf 5 (by rw [hml]; omega)
    have hb6 : byteAt (pre ++ encodeBits ord .uint64 n ++ suf) ((pre.length : Int) + 6) =
        (ord.putUint64 n).getD 6 0 := by
      simpa [he] using byteAt_append pre _ suf 6 (by rw [hml]; omega)
    have hb7 : byteAt (pre ++ encodeBits ord .uint64 n ++ suf) ((pre.length : Int) + 7) =
        (ord.putUint64 n).getD 7 0 := by
      simpa [he] using byteAt_append pre _ suf 7 (by rw [hml]; omega)
    rw [hb0, hb1, hb2, hb3, hb4, hb5, hb6, hb7, uint64_putUint64 ord n (by simpa [GoKind.bits] using hn)]
    rfl
  case int64 =>
    have he : encodeBits ord .int64 n = ord.putUint64 n := rfl
    have hml : (ord.putUint64 n).length = 8 := by cases ord <;> rfl
    rw [ReadOrderedT_int64_eval native ord _ _ (Int.natCast_nonneg _)
      (by rw [List.length_append, List.length_append, he, hml]; push_cast; omega) hlen]
    have hb0 : byteAt (pre ++ encodeBits ord .int64 n ++ suf) (pre.length : Int) =
        (ord.putUint64 n).getD 0 0 := by
      simpa [he] using byteAt_append pre _ suf 0 (by rw [hml]; omega)
    have hb1 : byteAt (pre ++ encodeBits ord .int64 n ++ suf) ((pre.length : Int) + 1) =
        (ord.putUint64 n).getD 1 0 := by
      simpa [he] using byteAt_append pre _ suf 1 (by rw [hml]; omega)
    have hb2 : byteAt (pre ++ encodeBits ord .int64 n ++ suf) ((pre.length : Int) + 2) =
        (ord.putUint64 n).getD 2 0 := by
      simpa [he] using byteAt_append pre _ suf 2 (by rw [hml]; omega)
    have hb3 : byteAt (pre ++ encodeBits ord .int64 n ++ suf) ((pre.length : Int) + 3) =
        (ord.putUint64 n).getD 3 0 := by
      simpa [he] using byteAt_append pre _ suf 3 (by rw [hml]; omega)
    have hb4 : byteAt (pre ++ encodeBits ord .int64 n ++ suf) ((pre.length : Int) + 4) =
        (ord.putUint64 n).getD 4 0 := by
      simpa [he] using byteAt_append pre _ suf 4 (by rw [hml]; omega)
    have hb5 : byteAt (pre ++ encodeBits ord .int64 n ++ suf) ((pre.length : Int) + 5) =
        (ord.putUint64 n).getD 5 0 := by
      simpa [he] using byteAt_append pre _ suf 5 (by rw [hml]; omega)
    have hb6 : byteAt (pre ++ encodeBits ord .int64 n ++ suf) ((pre.length : Int) + 6) =
        (ord.putUint64 n).getD 6 0 := by
      simpa [he] using byteAt_append pre _ suf 6 (by rw [hml]; omega)
    have hb7 : byteAt (pre ++ encodeBits ord .int64 n ++ suf) ((pre.length : Int) + 7) =
        (ord.putUint64 n).getD 7 0 := by
      simpa [he] using byteAt_append pre _ suf 7 (by rw [hml]; omega)
    rw [hb0, hb1, hb2, hb3, hb4, hb5, hb6, hb7, uint64_putUint64 ord n (by simpa [GoKind.bits] using hn),
      toSigned_eq_twosComplement]
    rfl
  case uintptr =>
    have he : encodeBits ord .uintptr n = ord.putUint64 n := rfl
    have hml : (ord.putUint64 n).length = 8 := by cases ord <;> rfl
    rw [ReadOrderedT_uintptr_eval native ord _ _ (Int.natCast_nonneg _)
      (by rw [List.length_append, List.length_append, he, hml]; push_cast; omega) hlen]
    have hb0 : byteAt (pre ++ encodeBits ord .uintptr n ++ suf) (pre.length : Int) =
        (ord.putUint64 n).getD 0 0 := by
      simpa [he] using byteAt_append pre _ suf 0 (by rw [hml]; omega)
    have hb1 : byteAt (pre ++ encodeBits ord .uintptr n ++ suf) ((pre.length : Int) + 1) =
        (ord.putUint64 n).getD 1 0 := by
      simpa [he] using byteAt_append pre _ suf 1 (by rw [hml]; omega)
    have hb2 : byteAt (pre ++ encodeBits ord .uintptr n ++ suf) ((pre.length : Int) + 2) =
        (ord.putUint64 n).getD 2 0 := by
      simpa [he] using byteAt_append pre _ suf 2 (by rw [hml]; omega)
    have hb3 : byteAt (pre ++ encodeBits ord .uintptr n ++ suf) ((pre.length : Int) + 3) =
        (ord.putUint64 n).getD 3 0 := by
      simpa [he] using byteAt_append pre _ suf 3 (by rw [hml]; omega)
    have hb4 : byteAt (pre ++ encodeBits ord .uintptr n ++ suf) ((pre.length : Int) + 4) =
        (ord.putUint64 n).getD 4 0 := by
      simpa [he] using byteAt_append pre _ suf 4 (by rw [hml]; omega)
    have hb5 : byteAt (pre ++ encodeBits ord .uintptr n ++ suf) ((pre.length : Int) + 5) =
        (ord.putUint64 n).getD 5 0 := by
      simpa [he] using byteAt_append pre _ suf 5 (by rw [hml]; omega)
    have hb6 : byteAt (pre ++ encodeBits ord .uintptr n ++ suf) ((pre.length : Int) + 6) =
        (ord.putUint64 n).getD 6 0 := by
      simpa [he] using byteAt_append pre _ suf 6 (by rw [hml]; omega)
    have hb7 : byteAt (pre ++ encodeBits ord .uintptr n ++ suf) ((pre.length : Int) + 7) =
        (ord.putUint64 n).getD 7 0 := by
      simpa [he] using byteAt_append pre _ suf 7 (by rw [hml]; omega)
    rw [hb0, hb1, hb2, hb3, hb4, hb5, hb6, hb7, uint64_putUint64 ord n (by simpa [GoKind.bits] using hn)]
    rfl
  case float32 =>
    have he : encodeBits ord .float32 n = ord.putUint32 n := rfl
    have hml : (ord.putUint32 n).length = 4 := by cases ord <;> rfl
    rw [ReadOrderedT_float32_eval native ord _ _ (Int.natCast_nonneg _)
      (by rw [List.length_append, List.length_append, he, hml]; push_cast; omega) hlen]
    have hb0 : byteAt (pre ++ encodeBits ord .float32 n ++ suf) (pre.length : Int) =
        (ord.putUint32 n).getD 0 0 := by
      simpa [he] using byteAt_append pre _ suf 0 (by rw [hml]; omega)
    have hb1 : byteAt (pre ++ encodeBits ord .float32 n ++ suf) ((pre.length : Int) + 1) =
        (ord.putUint32 n).getD 1 0 := by
      simpa [he] using byteAt_append pre _ suf 1 (by rw [hml]; omega)
    have hb2 : byteAt (pre ++ encodeBits ord .float32 n ++ suf) ((pre.length : Int) + 2) =
        (ord.putUint32 n).getD 2 0 := by
      simpa [he] using byteAt_append pre _ suf 2 (by rw [hml]; omega)
    have hb3 : byteAt (pre ++ encodeBits ord .float32 n ++ suf) ((pre.length : Int) + 3) =
        (ord.putUint32 n).getD 3 0 := by
      simpa [he] using byteAt_append pre _ suf 3 (by rw [hml]; omega)
    rw [hb0, hb1, hb2, hb3, uint32_putUint32 ord n (by simpa [GoKind.bits] using hn)]
    rfl
  case float64 =>
    have he : encodeBits ord .float64 n = ord.putUint64 n := rfl
    have hml : (ord.putUint64 n).length = 8 := by cases ord <;> rfl
    rw [ReadOrderedT_float64_eval native ord _ _ (Int.natCast_nonneg _)
      (by rw [List.length_append, List.length_append, he, hml]; push_cast; omega) hlen]
    have hb0 : byteAt (pre ++ encodeBits ord .float64 n ++ suf) (pre.length : Int) =
        (ord.putUint64 n).getD 0 0 := by
      simpa [he] using byteAt_append pre _ suf 0 (by rw [hml]; omega)
    have hb1 : byteAt (pre ++ encodeBits ord .float64 n ++ suf) ((pre.length : Int) + 1) =
        (ord.putUint64 n).getD 1 0 := by
      simpa [he] using byteAt_append pre _ suf 1 (by rw [hml]; omega)
    have hb2 : byteAt (pre ++ encodeBits ord .float64 n ++ suf) ((pre.length : Int) + 2) =
        (ord.putUint64 n).getD 2 0 := by
      simpa [he] using byteAt_append pre _ suf 2 (by rw [hml]; omega)
    have hb3 : byteAt (pre ++ encodeBits ord .float64 n ++ suf) ((pre.length : Int) + 3) =
        (ord.putUint64 n).getD 3 0 := by
      simpa [he] using byteAt_append pre _ suf 3 (by rw [hml]; omega)
    have hb4 : byteAt (pre ++ encodeBits ord .float64 n ++ suf) ((pre.length : Int) + 4) =
        (ord.putUint64 n).getD 4 0 := by
      simpa [he] using byteAt_append pre _ suf 4 (by rw [hml]; omega)
    have hb5 : byteAt (pre ++ encodeBits ord .float64 n ++ suf) ((pre.length : Int) + 5) =
        (ord.putUint64 n).getD 5 0 := by
      simpa [he] using byteAt_append pre _ suf 5 (by rw [hml]; omega)
    have hb6 : byteAt (pre ++ encodeBits ord .float64 n ++ suf) ((pre.length : Int) + 6) =
        (ord.putUint64 n).getD 6 0 := by
      simpa [he] using byteAt_append pre _ suf 6 (by rw [hml]; omega)
    have hb7 : byteAt (pre ++ encodeBits ord .float64 n ++ suf) ((pre.length : Int) + 7) =
        (ord.putUint64 n).getD 7 0 := by
      simpa [he] using byteAt_append pre _ suf 7 (by rw [hml]; omega)
    rw [hb0, hb1, hb2, hb3, hb4, hb5, hb6, hb7, uint64_putUint64 ord n (by simpa [GoKind.bits] using hn)]
    rfl

/-- Witness for C2, via `c2_roundtrip`: a big-endian uint16 round-trip
of 0x1234 at offset 0, a little-endian float32 round-trip of the quiet
NaN bit pattern 0x7FC00000, and a big-endian int16 round-trip of the
extremal pattern 0x8000 (the minimum value -32768) at offset 1. -/
theorem c2_witness :
    ReadOrderedT .little .uint16 ([] ++ encodeBits .big .uint16 0x1234 ++ []) 0
      (some .big) = .ok (.u 16 0x1234) ∧
    ReadOrderedT .big .float32 ([] ++ encodeBits .little .float32 0x7FC00000 ++ [7]) 0
      (some .little) = .ok (.f32 0x7FC00000) ∧
    ReadOrderedT .little .int16 ([0xAB] ++ encodeBits .big .int16 0x8000 ++ []) 1
      (some .big) = .ok (.i 16 (-32768)) :=
  ⟨(c2_roundtrip .little .big .uint16 0x1234 [] []
      (by decide) (by decide) (by decide) (by decide)).trans (by decide),
   (c2_roundtrip .big .little .float32 0x7FC00000 [] [7]
      (by decide) (by decide) (by decide) (by decide)).trans (by decide),
   (c2_roundtrip .little .big .int16 0x8000 [0xAB] []
      (by decide) (by decide) (by decide) (by decide)).trans (by decide)⟩

end BufferGenerics
